import Mathlib

/-!
Verification development for the go-debugger repository.

The definitions below are a shallow embedding of `debugger.go`.
The tracee (the traced child process) is modelled as a `World`: its byte
memory, its program-counter register, and whether it is still alive.  The
ptrace wrappers `setBreakpoint`, `clearBreakpoint`, `setPC`, `getPC` are
translated directly from the source; `cont` and `step` are blocking waits on
the operating system, so they appear as oracle parameters of type
`World → StopStatus × World` wherever the source calls them.

The Go standard library `debug/gosym` symbol table is not part of the
repository; it is modelled from the spec (section 4.3) as a list of
address/file/line entries with ascending addresses, where `lineToPC` returns
the address of the first entry for a source coordinate and `pcToLine` returns
the entry enclosing an address.

The command loop of `main` is embedded as `dispatchStep` / `dispatchInput` /
`runCommands`, one branch per branch of the Go `if` chain, with the mutable
locals of `main` (`filename`, `lineno`, `pc`) collected in `SessionState` and
the rendered output abstracted as a list of `Event`s.
-/

/-- Wait status returned by `cont` / `step` (syscall.WaitStatus, reduced to
the two outcomes the debugger distinguishes). -/
inductive StopStatus where
  | stopped (signal : Nat) : StopStatus
  | exited (code : Nat) : StopStatus
deriving DecidableEq

/-- The traced process: byte memory, program counter register, liveness. -/
structure World where
  mem : Nat → Nat
  pc : Nat
  alive : Bool

/-- Pointwise memory update (the effect of a one-byte PtracePokeData). -/
def updMem (m : Nat → Nat) (addr v : Nat) : Nat → Nat :=
  fun x => if x = addr then v else m x

/-- From `setBreakpoint` (debugger.go lines 90-101): peek the original byte at
the breakpoint address, poke the trap opcode 0xCC in its place, and return the
original byte. -/
def setBreakpoint (w : World) (breakpoint : Nat) : Nat × World :=
  (w.mem breakpoint, { w with mem := updMem w.mem breakpoint 0xCC })

/-- From `clearBreakpoint` (debugger.go lines 103-108): poke the saved
original byte back at the breakpoint address. -/
def clearBreakpoint (w : World) (breakpoint : Nat) (original : Nat) : World :=
  { w with mem := updMem w.mem breakpoint original }

/-- From `setPC` (debugger.go lines 68-79): overwrite the program counter
register. -/
def setPC (w : World) (pc : Nat) : World :=
  { w with pc := pc }

/-- From `getPC` (debugger.go lines 81-88): read the program counter
register. -/
def getPC (w : World) : Nat :=
  w.pc

/-- One entry of the line table: an instruction address and the source
coordinate it starts. -/
structure Entry where
  addr : Nat
  file : String
  line : Int
deriving DecidableEq

/-- Modelled from the spec: the `SymbolTable` of section 4.3 (the repository
uses `debug/gosym`, which is outside the repository's own sources).  Entries
are kept in ascending address order; each entry covers the addresses from its
own up to the next entry's. -/
abbrev SymTable := List Entry

/-- Modelled from the spec: `lineToPC(file, line) -> address` maps a source
coordinate to the address of its first instruction, failing when no entry
matches (`LocationNotFound`). -/
def lineToPC (tbl : SymTable) (file : String) (line : Int) : Option Nat :=
  (tbl.find? (fun e => e.file == file && e.line == line)).map (fun e => e.addr)

/-- Modelled from the spec: `pcToLine(address) -> (file, line)` maps a program
counter to the enclosing source line: the last entry whose address is at most
the given one. -/
def pcToLine : SymTable → Nat → Option (String × Int)
  | [], _ => none
  | e :: rest, pc =>
    if pc < e.addr then
      none
    else
      match pcToLine rest pc with
      | some r => some r
      | none => some (e.file, e.line)

/-- From `runToSourceLine` (debugger.go lines 370-382): resolve the line to an
address (fatal, i.e. `none`, when unresolvable), install a transient
breakpoint, continue, then unconditionally remove the breakpoint and reset the
program counter to the breakpoint address.  `contFn` is the `cont` oracle. -/
def runToSourceLine (contFn : World → StopStatus × World) (tbl : SymTable)
    (w : World) (filename : String) (lineNumber : Int) :
    Option (StopStatus × World) :=
  match lineToPC tbl filename lineNumber with
  | none => none
  | some pc =>
    let r := setBreakpoint w pc
    let s := contFn r.2
    let w3 := clearBreakpoint s.2 pc r.1
    let w4 := setPC w3 pc
    some (s.1, w4)

/-- The clamped half-open index window of `showListingSource`
(debugger.go lines 344-351): `start = lineNumber - 3` clamped below at `0`,
`end = lineNumber + 3` clamped above at `numLines - 1`. -/
def listingWindow (numLines : Nat) (lineNumber : Int) : Int × Int :=
  let s := lineNumber - 3
  let s := if s < 0 then 0 else s
  let e := lineNumber + 3
  let e := if (numLines : Int) ≤ e then (numLines : Int) - 1 else e
  (s, e)

/-- The 0-based indices `i` visited by the `for i := start; i < end; i++`
loop of `showListingSource`. -/
def listingIndices (numLines : Nat) (lineNumber : Int) : List Int :=
  let win := listingWindow numLines lineNumber
  (List.range (win.2 - win.1).toNat).map (fun k : Nat => win.1 + (k : Int))

/-- One rendered row of `showListingSource` (debugger.go lines 354-361):
the marker column (`indicator` exactly when the 0-based index equals
`lineNumber`, two blanks otherwise), the displayed line number `i + 1`, and
the source text of index `i`. -/
def listingRows (lines : List String) (lineNumber : Int) (indicator : String) :
    List (String × Int × String) :=
  (listingIndices lines.length lineNumber).map
    (fun i => (if i = lineNumber then indicator else "  ", i + 1, lines.getD i.toNat ""))

/-- Go `strings.HasPrefix`, computed structurally over the character lists
so that proofs can evaluate it. -/
def strHasPrefix (p s : String) : Bool :=
  p.data.isPrefixOf s.data

/-- Splitting a character list at every occurrence of the separator; the
result always has at least one (possibly empty) piece, as in Go. -/
def splitOnCharList (c : Char) : List Char → List (List Char)
  | [] => [[]]
  | a :: rest =>
    match splitOnCharList c rest with
    | [] => [[]]
    | x :: xs =>
      if a == c then [] :: x :: xs
      else (a :: x) :: xs

/-- Go `strings.Split` for a single-character separator (the only kind the
debugger uses: " ", ":" and the newline). -/
def strSplitOn (s : String) (c : Char) : List String :=
  (splitOnCharList c s.data).map String.mk

/-- Remaining digits of a decimal literal, accumulated left to right;
`none` as soon as a non-digit appears. -/
def digitsToNatAux : List Char → Nat → Option Nat
  | [], acc => some acc
  | c :: rest, acc =>
    if c.isDigit then digitsToNatAux rest (10 * acc + (c.toNat - 48))
    else none

/-- A non-empty run of decimal digits, or `none`. -/
def digitsToNat? : List Char → Option Nat
  | [] => none
  | c :: rest => digitsToNatAux (c :: rest) 0

/-- Go `strconv.Atoi`: an optional sign followed by at least one decimal
digit; anything else is an error. -/
def atoi (s : String) : Option Int :=
  match s.data with
  | '+' :: rest => (digitsToNat? rest).map (fun n => (n : Int))
  | '-' :: rest => (digitsToNat? rest).map (fun n => -(n : Int))
  | l => (digitsToNat? l).map (fun n => (n : Int))

/-- Go `strings.Contains` for a single-character needle. -/
def strContainsChar (s : String) (c : Char) : Bool :=
  s.data.contains c

/-- From `showListingSource` (debugger.go lines 336-363): split the file
contents on newlines and render the clamped window around `lineNumber`. -/
def showListingSource (contents : String) (lineNumber : Int) (indicator : String) :
    List (String × Int × String) :=
  listingRows (strSplitOn contents '\n') lineNumber indicator

/-- From `isRegisterCommand` (debugger.go lines 199-203). -/
def isRegisterCommand (command : String) : Bool :=
  strHasPrefix "register " command ||
    strHasPrefix "reg " command ||
    strHasPrefix "r " command

/-- From `isBreakpointCommand` (debugger.go lines 205-209): a breakpoint
command is recognised only by keyword-plus-space prefixes. -/
def isBreakpointCommand (command : String) : Bool :=
  strHasPrefix "breakpoint " command ||
    strHasPrefix "break " command ||
    strHasPrefix "b " command

/-- From `isStepCommand` (debugger.go lines 211-213). -/
def isStepCommand (command : String) : Bool :=
  command == "step" || command == "s"

/-- From `isStepOverCommand` (debugger.go lines 215-217). -/
def isStepOverCommand (command : String) : Bool :=
  command == "next" || command == "n"

/-- From `isContinueCommand` (debugger.go lines 219-221). -/
def isContinueCommand (command : String) : Bool :=
  command == "continue" || command == "c"

/-- From `isHelpCommand` (debugger.go lines 223-225). -/
def isHelpCommand (command : String) : Bool :=
  command == "help" || command == "h" || command == "?"

/-- From `isListingCommand` (debugger.go lines 227-234). -/
def isListingCommand (command : String) : Bool :=
  strHasPrefix "listing " command ||
    strHasPrefix "list " command ||
    strHasPrefix "l " command ||
    command == "listing" ||
    command == "list" ||
    command == "l"

/-- From `isQuitCommand` (debugger.go lines 236-238). -/
def isQuitCommand (command : String) : Bool :=
  command == "q" || command == "quit" || command == "exit"

/-- From `parseBreakpointCommand` (debugger.go lines 384-404): take the last
space-separated token; on `file:line` split at the colon, otherwise keep the
cursor file; a non-numeric line number is an error (`none`, fatal in main). -/
def parseBreakpointCommand (command : String) (filename : String) :
    Option (String × Int) :=
  let parts := strSplitOn command ' '
  let command := parts.getLastD ""
  if strContainsChar command ':' then
    let ps := strSplitOn command ':'
    match atoi (ps.getD 1 "") with
    | none => none
    | some lineNumber => some (ps.headD "", lineNumber)
  else
    match atoi command with
    | none => none
    | some lineNumber => some (filename, lineNumber)

/-- Observable output of one loop iteration of `main`: a source listing
rendered around a center line with a marker, the help text, the register
stub message, or the "command unknown" message. -/
inductive Event where
  | listing (file : String) (center : Int) (indicator : String) : Event
  | helpShown : Event
  | registerMsg : Event
  | unknownCommand : Event
deriving DecidableEq

/-- The mutable locals of `main`'s loop (debugger.go lines 110-197):
the cursor file `filename`, the cursor line `lineno`, the last-read program
counter `pc`, plus the tracee `world`. -/
structure SessionState where
  filename : String
  lineno : Int
  pc : Nat
  world : World

/-- Outcome of one loop iteration of `main`: continue the loop with a new
state, leave the loop (recording whether the tracee was killed first), or
abort the whole debugger (`log.Fatal`). -/
inductive StepResult where
  | next (st : SessionState) (events : List Event) : StepResult
  | quit (killedTracee : Bool) (st : SessionState) (events : List Event) : StepResult
  | fatal : StepResult

/-- From the command dispatch chain of `main` (debugger.go lines 144-195),
one branch per `if`/`else if`, in source order.  `stepFn` and `contFn` are
the `step` and `cont` oracles.  Note that in the breakpoint branch the Go
`:=` declarations shadow the outer `filename`, `lineNumber` and `pc`, so the
session state is left untouched there apart from the tracee's memory. -/
def dispatchStep (tbl : SymTable) (stepFn contFn : World → StopStatus × World)
    (st : SessionState) (command : String) : StepResult :=
  if isHelpCommand command then
    .next st [.helpShown]
  else if isRegisterCommand command then
    .next st [.registerMsg]
  else if isBreakpointCommand command then
    match parseBreakpointCommand command st.filename with
    | none => .fatal
    | some fl =>
      match lineToPC tbl fl.1 fl.2 with
      | none => .fatal
      | some pc =>
        let r := setBreakpoint st.world pc
        .next { st with world := r.2 } [.listing fl.1 fl.2 "*"]
  else if isStepCommand command then
    let s := stepFn st.world
    let pc := getPC s.2
    let fl := (pcToLine tbl pc).getD ("", 0)
    .next { st with pc := pc, world := s.2 } [.listing fl.1 fl.2 ">"]
  else if isStepOverCommand command then
    let lineno := st.lineno + 1
    match runToSourceLine contFn tbl st.world st.filename lineno with
    | none => .fatal
    | some sw =>
      let pc := getPC sw.2
      let fl := (pcToLine tbl pc).getD ("", 0)
      .next { st with lineno := lineno, pc := pc, world := sw.2 } [.listing fl.1 fl.2 ">"]
  else if isContinueCommand command then
    let s := contFn st.world
    .next { st with world := s.2 } []
  else if isListingCommand command then
    let pc := getPC st.world
    let fl := (pcToLine tbl pc).getD ("", 0)
    .next { st with pc := pc } [.listing fl.1 fl.2 ">"]
  else if isQuitCommand command then
    .quit true st []
  else
    .next st [.unknownCommand]

/-- One line read from the operator, or end of input. -/
inductive Input where
  | line (s : String) : Input
  | eof : Input

/-- The read step of `main`'s loop (debugger.go lines 134-141): on `io.EOF`
the loop just breaks (the tracee is not killed); otherwise the stripped line
is dispatched. -/
def dispatchInput (tbl : SymTable) (stepFn contFn : World → StopStatus × World)
    (st : SessionState) : Input → StepResult
  | .eof => .quit false st []
  | .line s => dispatchStep tbl stepFn contFn st s

/-- Run `main`'s loop over a list of command lines, collecting events;
`none` when a `log.Fatal` aborts the debugger. -/
def runCommands (tbl : SymTable) (stepFn contFn : World → StopStatus × World) :
    SessionState → List String → Option (SessionState × List Event)
  | st, [] => some (st, [])
  | st, c :: cs =>
    match dispatchStep tbl stepFn contFn st c with
    | .next st' events =>
      (runCommands tbl stepFn contFn st' cs).map (fun r => (r.1, events ++ r.2))
    | .quit _ st' events => some (st', events)
    | .fatal => none

/-- Modelled from the spec: "install persistent breakpoint; record in
breakpoint set", the set being "keyed by file, with an ordered-insertion set
of line numbers per file" (sections 3 and 4.4).  This is what the spec says
the dispatcher records; the source records nothing. -/
def recordBreakpoint (bps : List (String × List Int)) (file : String) (line : Int) :
    List (String × List Int) :=
  match bps with
  | [] => [(file, [line])]
  | (g, ls) :: rest =>
    if g = file then
      (g, ls ++ [line]) :: rest
    else
      (g, ls) :: recordBreakpoint rest file line

/-- Modelled from the spec: the breakpoint set the spec expects the session
to hold after processing the given command lines. -/
def specBreakpointSet (cursorFile : String) (cmds : List String) :
    List (String × List Int) :=
  cmds.foldl
    (fun bps c =>
      if isBreakpointCommand c then
        match parseBreakpointCommand c cursorFile with
        | some fl => recordBreakpoint bps fl.1 fl.2
        | none => bps
      else bps)
    []

/-- Projection: the events a loop iteration emitted. -/
def resultEvents : StepResult → List Event
  | .next _ events => events
  | .quit _ _ events => events
  | .fatal => []

/-- Projection: the session's cursor file, cursor line and pc variable after
a loop iteration. -/
def resultCursor : StepResult → Option (String × Int × Nat)
  | .next st _ => some (st.filename, st.lineno, st.pc)
  | .quit _ st _ => some (st.filename, st.lineno, st.pc)
  | .fatal => none

/-- Projection: the tracee's program counter after a loop iteration. -/
def resultWorldPC : StepResult → Option Nat
  | .next st _ => some (getPC st.world)
  | .quit _ st _ => some (getPC st.world)
  | .fatal => none

/-- Projection: `some true` when the iteration left the loop after killing
the tracee, `some false` when it left without killing it, `none` when the
loop goes on or the debugger aborted. -/
def resultKilledTracee : StepResult → Option Bool
  | .quit killed _ _ => some killed
  | _ => none

/-- A two-line table for main.go: line 5 starts at address 100, line 6 at
address 110. -/
def tblMain : SymTable :=
  [⟨100, "main.go", 5⟩, ⟨110, "main.go", 6⟩]

/-- A table resolving a.go:10, a.go:20 and b.go:5 to distinct addresses. -/
def tblAB : SymTable :=
  [⟨100, "a.go", 10⟩, ⟨110, "a.go", 20⟩, ⟨120, "b.go", 5⟩]

/-- A tracee whose memory is all zero except byte 7 at address 100, stopped
with pc 100. -/
def w0 : World :=
  { mem := fun a => if a = 100 then 7 else 0, pc := 100, alive := true }

/-- A session stopped at main.go:5 (pc 100). -/
def st0 : SessionState :=
  { filename := "main.go", lineno := 5, pc := 100, world := w0 }

/-- A `cont` oracle under which the tracee exits: status `exited 0`, process
no longer alive, its final pc 999. -/
def contExit : World → StopStatus × World :=
  fun w => (.exited 0, { w with alive := false, pc := 999 })

/-- A `cont`/`step` oracle under which the tracee advances to address 110 and
stops on a signal. -/
def contMove : World → StopStatus × World :=
  fun w => (.stopped 5, { w with pc := 110 })

/-- A `cont`/`step` oracle under which the tracee stops immediately,
unchanged. -/
def contStay : World → StopStatus × World :=
  fun w => (.stopped 5, w)

theorem pcToLine_eq_none (tbl : SymTable) (pc : Nat)
    (h : ∀ e ∈ tbl, pc < e.addr) : pcToLine tbl pc = none := by
  induction tbl with
  | nil => rfl
  | cons e rest ih =>
    have he : pc < e.addr := h e (List.mem_cons_self e rest)
    simp [pcToLine, he]

theorem lineToPC_mem (tbl : SymTable) (file : String) (line : Int) (a : Nat)
    (h : lineToPC tbl file line = some a) : ∃ e ∈ tbl, e.addr = a := by
  unfold lineToPC at h
  cases hf : tbl.find? (fun e => e.file == file && e.line == line) with
  | none => rw [hf] at h; simp at h
  | some e =>
    rw [hf] at h
    simp at h
    exact ⟨e, List.mem_of_find?_eq_some hf, h⟩

theorem lineToPC_pcToLine (tbl : SymTable) (file : String) (line : Int) (a : Nat)
    (hs : tbl.Pairwise (fun x y => x.addr < y.addr))
    (h : lineToPC tbl file line = some a) :
    pcToLine tbl a = some (file, line) := by
  induction tbl with
  | nil => simp [lineToPC] at h
  | cons e rest ih =>
    rw [List.pairwise_cons] at hs
    by_cases hp : (e.file == file && e.line == line) = true
    · have hfind : lineToPC (e :: rest) file line = some e.addr := by
        unfold lineToPC
        simp [List.find?_cons, hp]
      rw [hfind] at h
      obtain rfl : e.addr = a := by simpa using h
      simp only [Bool.and_eq_true, beq_iff_eq] at hp
      have hrest : pcToLine rest e.addr = none :=
        pcToLine_eq_none rest e.addr (fun x hx => hs.1 x hx)
      simp [pcToLine, hrest, hp.1, hp.2]
    · have hfind : lineToPC (e :: rest) file line = lineToPC rest file line := by
        have hp' : (e.file == file && e.line == line) = false := by
          simpa using hp
        unfold lineToPC
        simp [List.find?_cons, hp']
      rw [hfind] at h
      obtain ⟨e', he', rfl⟩ := lineToPC_mem rest file line a h
      have hlt : e.addr < e'.addr := hs.1 e' he'
      have hnlt : ¬ e'.addr < e.addr := by omega
      simp [pcToLine, hnlt, ih hs.2 h]

/-- C1 counterexample: run-to-line on main.go:5 (address 100, original byte 7)
under a `cont` that makes the tracee exit (final pc 999, not at the
breakpoint).  The code still removes the transient breakpoint (byte 100 is
back to 7, not the trap 0xCC, although the process has exited) and still
resets the program counter to the breakpoint address 100 (although the stop
was an exit, not the breakpoint).  Both conditionals the claim describes are
absent from the code. -/
theorem c1_runToSourceLine_cleanup_cex :
    (runToSourceLine contExit tblMain w0 "main.go" 5).map
        (fun r => (r.1, r.2.alive, r.2.mem 100, r.2.pc)) =
      some (StopStatus.exited 0, false, 7, 100) ∧ (7 : Nat) ≠ 0xCC := by
  exact ⟨by decide, by decide⟩

/-- C1 (amended): after `cont` returns, `runToSourceLine` removes the
transient breakpoint and resets the program counter to the breakpoint address
unconditionally, for every stop reason (breakpoint, unrelated signal, or
exit): the final world has pc equal to the resolved address and the original
byte restored there. -/
theorem c1_runToSourceLine_unconditional_cleanup
    (contFn : World → StopStatus × World) (tbl : SymTable) (w : World)
    (filename : String) (lineNumber : Int) (a : Nat)
    (h : lineToPC tbl filename lineNumber = some a) :
    ∃ status w', runToSourceLine contFn tbl w filename lineNumber = some (status, w') ∧
      w'.pc = a ∧ w'.mem a = w.mem a := by
  refine ⟨(contFn (setBreakpoint w a).2).1,
    setPC (clearBreakpoint (contFn (setBreakpoint w a).2).2 a (setBreakpoint w a).1) a,
    ?_, rfl, ?_⟩
  · unfold runToSourceLine
    rw [h]
  · simp [setPC, clearBreakpoint, setBreakpoint, updMem]

/-- C1 witness: the amended theorem applied at main.go:5 with the exiting
`cont` oracle. -/
theorem c1_runToSourceLine_unconditional_cleanup_witness :
    lineToPC tblMain "main.go" 5 = some 100 ∧
    (∃ status w', runToSourceLine contExit tblMain w0 "main.go" 5 = some (status, w') ∧
      w'.pc = 100 ∧ w'.mem 100 = w0.mem 100) :=
  ⟨by decide,
   c1_runToSourceLine_unconditional_cleanup contExit tblMain w0 "main.go" 5 100 (by decide)⟩

/-- C2: for any tracee memory, any address and hence any original byte value,
`setBreakpoint` followed immediately by `clearBreakpoint` with the byte
`setBreakpoint` returned leaves every byte of memory — the breakpoint address
included — equal to its original value, so no residual trap opcode remains. -/
theorem c2_breakpoint_byte_roundTrip (w : World) (breakpoint a : Nat) :
    (clearBreakpoint (setBreakpoint w breakpoint).2 breakpoint
        (setBreakpoint w breakpoint).1).mem a = w.mem a := by
  by_cases h : a = breakpoint <;>
    simp [setBreakpoint, clearBreakpoint, updMem, h]

/-- C3: for every (file, line) the symbol table resolves (table well-formed:
entry addresses strictly ascending), `runToSourceLine` leaves the tracee's
program counter exactly at the address `lineToPC` returned, and `pcToLine`
of that address yields the same (file, line). -/
theorem c3_runToSourceLine_pc_line_roundTrip
    (contFn : World → StopStatus × World) (tbl : SymTable) (w : World)
    (file : String) (line : Int) (a : Nat)
    (hs : tbl.Pairwise (fun x y => x.addr < y.addr))
    (h : lineToPC tbl file line = some a) :
    ∃ status w', runToSourceLine contFn tbl w file line = some (status, w') ∧
      getPC w' = a ∧ pcToLine tbl a = some (file, line) := by
  refine ⟨(contFn (setBreakpoint w a).2).1,
    setPC (clearBreakpoint (contFn (setBreakpoint w a).2).2 a (setBreakpoint w a).1) a,
    ?_, rfl, lineToPC_pcToLine tbl file line a hs h⟩
  unfold runToSourceLine
  rw [h]

/-- C3 witness: the theorem applied at main.go:5 of the concrete two-line
table, resolved to address 100. -/
theorem c3_runToSourceLine_pc_line_roundTrip_witness :
    List.Pairwise (fun x y => x.addr < y.addr) tblMain ∧
    lineToPC tblMain "main.go" 5 = some 100 ∧
    (∃ status w', runToSourceLine contStay tblMain w0 "main.go" 5 = some (status, w') ∧
      getPC w' = 100 ∧ pcToLine tblMain 100 = some ("main.go", 5)) :=
  ⟨by decide, by decide,
   c3_runToSourceLine_pc_line_roundTrip contStay tblMain w0 "main.go" 5 100
     (by decide) (by decide)⟩

/-- C4: rendering a five-line file around cursor line 2 (the run of
`showListingSource` with lineNumber 2).  Displayed numbers are 1-based, but
the marker lands on the row whose displayed number is 3 — the line after the
cursor — because the code compares the 0-based loop index against the 1-based
cursor line.  The row whose displayed 1-based number equals the cursor line 2
is unmarked, contradicting the claim that the marker appears next to the
source line whose 1-based number equals the cursor line. -/
theorem c4_listing_marker_off_by_one :
    showListingSource "a\nb\nc\nd\ne" 2 ">" =
      [("  ", 1, "a"), ("  ", 2, "b"), (">", 3, "c"), ("  ", 4, "d")] := by
  decide

/-- C5 counterexample: at end of input the loop of `main` just breaks: the
iteration reports `quit` with the killed-tracee flag `false`, whereas the
quit command path reports `true`.  The claim that end-of-input behaves like
quit and kills the traced process is false of the code. -/
theorem c5_eof_no_kill_cex :
    resultKilledTracee (dispatchInput tblMain contStay contStay st0 .eof) = some false ∧
    resultKilledTracee (dispatchInput tblMain contStay contStay st0 (.line "quit")) =
      some true := by
  exact ⟨rfl, rfl⟩

/-- C5 (amended): end of input terminates the session like quit does, but
without killing the traced process; only the explicit quit command kills it
before the session terminates. -/
theorem c5_eof_terminates_without_kill (tbl : SymTable)
    (stepFn contFn : World → StopStatus × World) (st : SessionState) :
    resultKilledTracee (dispatchInput tbl stepFn contFn st .eof) = some false ∧
    resultKilledTracee (dispatchInput tbl stepFn contFn st (.line "quit")) = some true := by
  exact ⟨rfl, rfl⟩

/-- C6: the session sits at pc 100, which the table maps to main.go line 5,
and the operator asks for a listing centered on line 6 ("list 6").  The code
recognises the command but ignores the argument: the rendered window is
centered on line 5 (the pcToLine of the current program counter), not on the
requested line 6 — although the program's own help text promises that the
display will be centered around the given line number.  The cursor is
unchanged. -/
theorem c6_listing_argument_ignored :
    isListingCommand "list 6" = true ∧
    resultEvents (dispatchStep tblMain contStay contStay st0 "list 6") =
      [Event.listing "main.go" 5 ">"] ∧
    resultCursor (dispatchStep tblMain contStay contStay st0 "list 6") =
      some ("main.go", 5, 100) := by
  exact ⟨by decide, by decide, by decide⟩

/-- C7 counterexample: a continue command under which the tracee stops at
address 110, an address the table maps to main.go line 6.  The session cursor
stays at (main.go, 5), the session pc variable stays 100, and no listing is
rendered: the cursor is not refreshed from the new program counter. -/
theorem c7_continue_no_refresh_cex :
    resultCursor (dispatchStep tblMain contStay contMove st0 "continue") =
      some ("main.go", 5, 100) ∧
    resultWorldPC (dispatchStep tblMain contStay contMove st0 "continue") = some 110 ∧
    pcToLine tblMain 110 = some ("main.go", 6) ∧
    resultEvents (dispatchStep tblMain contStay contMove st0 "continue") = [] := by
  exact ⟨by decide, by decide, by decide, by decide⟩

/-- C7 (amended): a continue command ("continue" or "c") only resumes the
tracee; the session state — cursor file, cursor line and pc variable — is
unchanged and no refresh via pcToLine happens. -/
theorem c7_continue_leaves_session_unchanged (tbl : SymTable)
    (stepFn contFn : World → StopStatus × World) (st : SessionState) :
    dispatchStep tbl stepFn contFn st "continue" =
      .next { st with world := (contFn st.world).2 } [] ∧
    dispatchStep tbl stepFn contFn st "c" =
      .next { st with world := (contFn st.world).2 } [] := by
  exact ⟨rfl, rfl⟩

/-- C8 counterexample: the breakpoint set the spec's recording rule yields
for the commands "break a.go:10", "break a.go:20", "break b.go:5" is exactly
{a.go: [10, 20], b.go: [5]} — but the code's session state after dispatching
those three commands is identical to the initial session state (the parsed
file, line and address shadow the outer variables in Go), so the session
records no breakpoint set at all. -/
theorem c8_no_breakpoint_set_cex :
    specBreakpointSet "main.go" ["break a.go:10", "break a.go:20", "break b.go:5"] =
      [("a.go", [10, 20]), ("b.go", [5])] ∧
    (runCommands tblAB contStay contStay st0
        ["break a.go:10", "break a.go:20", "break b.go:5"]).map
        (fun r => (r.1.filename, r.1.lineno, r.1.pc)) =
      some (st0.filename, st0.lineno, st0.pc) := by
  exact ⟨by decide, by decide⟩

/-- C8 (amended): after the three breakpoint commands the dispatcher has
recorded nothing — cursor file, cursor line and pc variable are unchanged —
and the only trace of the breakpoints is in the tracee, whose memory now
holds the trap byte 0xCC at the three resolved addresses 100, 110, 120
(other bytes unchanged), with a listing rendered around each breakpoint line
with the "*" indicator. -/
theorem c8_breakpoint_commands_effect :
    (runCommands tblAB contStay contStay st0
        ["break a.go:10", "break a.go:20", "break b.go:5"]).map
        (fun r => (r.1.filename, r.1.lineno, r.1.pc,
          r.1.world.mem 100, r.1.world.mem 110, r.1.world.mem 120, r.1.world.mem 104,
          r.2)) =
      some ("main.go", 5, 100, 0xCC, 0xCC, 0xCC, 0,
        [Event.listing "a.go" 10 "*", Event.listing "a.go" 20 "*",
         Event.listing "b.go" 5 "*"]) := by
  rfl

/-- C9: for every integer center line — zero, negative and past-the-end
values included — every 0-based index the rendering loop of
`showListingSource` visits is within the bounds of the line array: the
window start is clamped at 0 and the window end below the array length. -/
theorem c9_listing_indices_in_bounds (lines : List String) (lineNumber : Int)
    (i : Int) (hi : i ∈ listingIndices lines.length lineNumber) :
    0 ≤ i ∧ i.toNat < lines.length := by
  unfold listingIndices listingWindow at hi
  rw [List.mem_map] at hi
  obtain ⟨k, hk, hik⟩ := hi
  rw [List.mem_range] at hk
  simp only [] at hk hik
  by_cases h1 : lineNumber - 3 < 0
  · rw [if_pos h1] at hk hik
    by_cases h2 : (lines.length : Int) ≤ lineNumber + 3
    · rw [if_pos h2] at hk
      omega
    · rw [if_neg h2] at hk
      omega
  · rw [if_neg h1] at hk hik
    by_cases h2 : (lines.length : Int) ≤ lineNumber + 3
    · rw [if_pos h2] at hk
      omega
    · rw [if_neg h2] at hk
      omega

/-- C9 witness: index 0 is visited when a five-line file is rendered around
line 2, and it is within bounds. -/
theorem c9_listing_indices_in_bounds_witness :
    (0 : Int) ∈ listingIndices (["a", "b", "c", "d", "e"] : List String).length 2 ∧
    (0 ≤ (0 : Int) ∧ (0 : Int).toNat < (["a", "b", "c", "d", "e"] : List String).length) :=
  ⟨by decide, c9_listing_indices_in_bounds ["a", "b", "c", "d", "e"] 2 0 (by decide)⟩

/-- C10: the bare keywords "break", "b" and "breakpoint" are not recognised
as breakpoint commands — recognition requires the keyword followed by a
space, as "break " shows — and dispatching any of the three bare keywords
falls through every branch of the command chain to the "command unknown"
report, leaving the session state to continue unchanged. -/
theorem c10_bare_breakpoint_unknown :
    isBreakpointCommand "break" = false ∧
    isBreakpointCommand "b" = false ∧
    isBreakpointCommand "breakpoint" = false ∧
    isBreakpointCommand "break " = true ∧
    resultEvents (dispatchStep tblMain contStay contStay st0 "break") =
      [Event.unknownCommand] ∧
    resultEvents (dispatchStep tblMain contStay contStay st0 "b") =
      [Event.unknownCommand] ∧
    resultEvents (dispatchStep tblMain contStay contStay st0 "breakpoint") =
      [Event.unknownCommand] := by
  exact ⟨by decide, by decide, by decide, by decide, by decide, by decide, by decide⟩
